import Mathlib

/-!
Verification of the transcription request handler in src/app.py.

The Python source is shallowly embedded here:
strings are modelled as lists of characters where character-level
operations matter, and the two external capabilities of the handler
(the subprocess transcriber run_riva_asr and the cloud text store
save_text_to_gcs) are modelled as explicit outcome parameters, since
the handler only observes their success value or raised exception.

Python string primitives are reproduced for the ASCII inputs the
service handles: str.strip with no argument removes the ASCII
whitespace characters from both ends, str.strip with a quote argument
removes all leading and trailing quote characters, str.split with a
non-empty separator splits on every non-overlapping occurrence from
the left, and str.lower lowercases ASCII letters.
-/

namespace AsrApp

/-- The double-quote character, the argument of the second Python strip
call on line 79 of src/app.py. -/
def quoteChar : Char := '\x22'

/-- Python str.strip with no arguments removes these ASCII whitespace
characters from both ends (space, tab, newline, carriage return,
vertical tab, form feed). -/
def pyIsWs (c : Char) : Bool :=
  c = ' ' || c = '\t' || c = '\n' || c = '\r' || c = '\x0b' || c = '\x0c'

/-- Python str.strip with no arguments: drop whitespace from both ends. -/
def pyStripWs (l : List Char) : List Char :=
  ((l.dropWhile pyIsWs).reverse.dropWhile pyIsWs).reverse

/-- Python str.strip applied to the quote character: drop all leading and
trailing double quotes. -/
def pyStripQuotes (l : List Char) : List Char :=
  ((l.dropWhile (fun c => c = quoteChar)).reverse.dropWhile (fun c => c = quoteChar)).reverse

/-- Prepend a character to the first piece of a split result. -/
def consHead (c : Char) : List (List Char) → List (List Char)
  | [] => [[c]]
  | h :: t => (c :: h) :: t

/-- Fuelled worker for Python str.split with a non-empty separator.
The fuel is the length of the list, which suffices because every step
consumes at least one character. -/
def pySplitAux (sep : List Char) : Nat → List Char → List (List Char)
  | _, [] => [[]]
  | 0, l => [l]
  | n + 1, c :: rest =>
    if sep.isPrefixOf (c :: rest) then
      [] :: pySplitAux sep n (List.drop sep.length (c :: rest))
    else
      consHead c (pySplitAux sep n rest)

/-- Python str.split with a non-empty separator: split on every
non-overlapping occurrence, scanning left to right. The result is never
empty, and splitting the empty string gives a single empty piece. -/
def pySplit (sep l : List Char) : List (List Char) := pySplitAux sep l.length l

/-- Python expression line.split(sep)[1]: the second piece of the split.
In the source this indexing is only reached when the separator occurs in
the line, so the split has at least two pieces; the default is never
taken under those guards. -/
def splitIdx1 (sep l : List Char) : List Char := (pySplit sep l).getD 1 []

/-- Python expression xs[-1] for a list of pieces: the last piece.
A split result is never empty, so the default is never taken. -/
def lastPiece : List (List Char) → List Char
  | [] => []
  | [x] => x
  | _ :: x :: xs => lastPiece (x :: xs)

/-- The literal marker of the reverse scan on line 73 of src/app.py. -/
def finalMarker : List Char := "Final transcript:".data

/-- The literal marker of the forward scan on line 78 of src/app.py. -/
def transcriptMarker : List Char := "transcript:".data

/-- The extraction failure message raised on line 84 of src/app.py. -/
def extractErrMsg : String := "Unable to extract transcript from ASR output"

/-- The empty-output failure message raised on line 68 of src/app.py. -/
def emptyOutputCheckMsg : String := "ASR output is empty. Check the run_riva_asr function."

/-- Per-line processing of the forward scan, lines 78 to 79 of
src/app.py: a line whose stripped content starts with the transcript
marker contributes the text after the marker, stripped of whitespace and
then of all leading and trailing double quotes. -/
def piece (line : List Char) : Option (List Char) :=
  if transcriptMarker.isPrefixOf (pyStripWs line) then
    some (pyStripQuotes (pyStripWs (splitIdx1 transcriptMarker line)))
  else none

/-- Lines 70 to 84 of src/app.py, operating on the list of lines of the
stripped ASR output. Rule 1: scan the lines in reverse and return the
piece after the final marker of the first line that starts with it.
Rule 2: otherwise accumulate the per-line pieces of the forward scan,
each followed by a space; if the accumulator is non-empty return it
stripped, else fail. -/
def extract_from_lines (lines : List (List Char)) : Except String (List Char) :=
  match lines.reverse.find? (fun l => finalMarker.isPrefixOf l) with
  | some line => .ok (pyStripWs (splitIdx1 finalMarker line))
  | none =>
    let transcript := lines.foldl (fun acc line =>
      match piece line with
      | some p => acc ++ (p ++ [' '])
      | none => acc) []
    if transcript = [] then .error extractErrMsg
    else .ok (pyStripWs transcript)

/-- Line 70 of src/app.py: the lines of the stripped ASR output. -/
def linesOf (s : String) : List (List Char) := pySplit ['\n'] (pyStripWs s.data)

/-- Lines 66 to 84 of src/app.py: extract_transcript. An empty input is
rejected first; otherwise the two-tier line scan runs on the lines of
the stripped output. -/
def extract_transcript (asr_output : String) : Except String String :=
  if asr_output = "" then .error emptyOutputCheckMsg
  else
    match extract_from_lines (linesOf asr_output) with
    | .ok t => .ok (String.mk t)
    | .error e => .error e

/-- An uploaded multipart file as the handler observes it: only the
declared filename matters to validation. -/
structure UploadedFile where
  filename : String

/-- A request to the asr route: the multipart field named file, when
present. -/
structure AsrRequest where
  fileField : Option UploadedFile

/-- Outcome of the subprocess transcriber run_riva_asr (lines 26 to 54
of src/app.py): captured standard output on success, or a
CalledProcessError (a non-ValueError exception) re-raised on non-zero
exit. -/
inductive TranscribeOutcome where
  | ok (stdout : String)
  | procError

/-- Outcome of the cloud text store save_text_to_gcs (lines 56 to 64 of
src/app.py): a public URL on success, or a storage-client exception
(not a ValueError) on failure. -/
inductive StoreOutcome where
  | ok (url : String)
  | storeError

/-- The JSON body of a handler response: either an error object or the
success object with the stored URL and the transcript text. -/
inductive RespBody where
  | jsonError (msg : String)
  | jsonResult (text_url text : String)
deriving DecidableEq

/-- An HTTP response: status code and JSON body. -/
structure HttpResponse where
  status : Nat
  body : RespBody
deriving DecidableEq

/-- The generic error message of line 119 of src/app.py. -/
def genericErrMsg : String := "An unexpected error occurred during processing"

/-- The invalid-extension message of line 124 of src/app.py. -/
def invalidTypeMsg : String := "Invalid file type. Please upload a WAV, OPUS, or OGG file."

/-- The accepted extension list of line 96 of src/app.py. -/
def allowed_extensions : List String := ["wav", "opus", "ogg"]

/-- Python str.lower for the ASCII filenames the service handles. -/
def pyLower (s : String) : String := String.mk (s.data.map Char.toLower)

/-- Line 96 of src/app.py: filename.split(".")[-1].lower(), the
lowercased last dot-separated segment of the filename. -/
def extOf (filename : String) : String :=
  pyLower (String.mk (lastPiece (pySplit ['.'] filename.data)))

/-- Lines 101 to 119 of src/app.py: the body of the try block, given the
outcomes of the two external calls. A raised CalledProcessError or
storage exception reaches the generic except-Exception arm; a raised
ValueError reaches the except-ValueError arm which surfaces its
message. -/
def try_body (t : TranscribeOutcome) (st : StoreOutcome) : HttpResponse :=
  match t with
  | .procError => ⟨500, .jsonError genericErrMsg⟩
  | .ok out =>
    if out = "" then ⟨500, .jsonError "ASR output is empty"⟩
    else
      match extract_transcript out with
      | .error msg => ⟨500, .jsonError msg⟩
      | .ok transcript =>
        match st with
        | .storeError => ⟨500, .jsonError genericErrMsg⟩
        | .ok url => ⟨200, .jsonResult url transcript⟩

/-- Line 122 of src/app.py: os.unlink raises if the file is missing;
the model returns none for a raised FileNotFoundError. -/
def os_unlink (present : Bool) : Option Bool :=
  if present then some false else none

/-- Lines 120 to 122 of src/app.py: the finally block unlinks the temp
file only when os.path.exists reports it present, so a missing file
never raises. The result is the final existence state of the file, or
none if cleanup raised. -/
def cleanup (present : Bool) : Option Bool :=
  if present then os_unlink present else some present

/-- The observable outcome of one handler invocation: the HTTP response,
whether a temp file was created, and the cleanup result (the final
existence state of the temp file, none if cleanup raised). -/
structure HandlerOutcome where
  response : HttpResponse
  tempCreated : Bool
  cleanupResult : Option Bool
deriving DecidableEq

/-- Lines 86 to 124 of src/app.py: asr_handler. Missing field and empty
filename are rejected first; then the extension gate of line 96 (the
file object is truthy exactly when its filename is non-empty). On the
accepted path a temp file is created, the try block runs against the
external outcomes, and the finally block cleans up. -/
def asr_handler (req : AsrRequest) (t : TranscribeOutcome) (st : StoreOutcome) :
    HandlerOutcome :=
  match req.fileField with
  | none => ⟨⟨400, .jsonError "No file provided"⟩, false, some false⟩
  | some f =>
    if f.filename = "" then ⟨⟨400, .jsonError "No file selected"⟩, false, some false⟩
    else if f.filename ≠ "" ∧ extOf f.filename ∈ allowed_extensions then
      ⟨try_body t st, true, cleanup true⟩
    else
      ⟨⟨400, .jsonError invalidTypeMsg⟩, false, some false⟩

/-- The per-line contribution of the forward scan to the accumulator:
the piece followed by a space for a collected line, nothing for any
other line. -/
def chunk (line : List Char) : List Char :=
  match piece line with
  | some p => p ++ [' ']
  | none => []

/-- Concatenation of pieces with a single space separator, the shape in
which the forward-scan result is described. -/
def joinSp : List (List Char) → List Char
  | [] => []
  | [p] => p
  | p :: q :: ps => p ++ ' ' :: joinSp (q :: ps)

/-- The last line that starts with the final marker: what the reverse
scan of rule 1 selects. -/
def lastFinalLine (ls : List (List Char)) : Option (List Char) :=
  (ls.filter (fun l => finalMarker.isPrefixOf l)).getLast?

/-- Modelled from the claim wording for the extension check: the
substring of the filename after the last dot (the whole filename when it
has no dot), lowercased. -/
def extSpec (name : String) : String :=
  pyLower (String.mk ((name.data.reverse.takeWhile (fun c => c ≠ '.')).reverse))

/-! Basic lemmas about the split primitive. -/

theorem consHead_ne_nil (c : Char) (xs : List (List Char)) : consHead c xs ≠ [] := by
  cases xs <;> simp [consHead]

theorem pySplitAux_ne_nil : ∀ (sep : List Char) (n : Nat) (l : List Char),
    pySplitAux sep n l ≠ []
  | _, _, [] => by simp [pySplitAux]
  | _, 0, c :: rest => by simp [pySplitAux]
  | sep, n + 1, c :: rest => by
    simp only [pySplitAux]
    split
    · simp
    · exact consHead_ne_nil _ _

theorem pySplit_ne_nil (sep l : List Char) : pySplit sep l ≠ [] :=
  pySplitAux_ne_nil sep l.length l

theorem pySplit_cons_single (c₀ c : Char) (rest : List Char) :
    pySplit [c₀] (c :: rest) =
      if c₀ = c then [] :: pySplit [c₀] rest else consHead c (pySplit [c₀] rest) := by
  show pySplitAux [c₀] (rest.length + 1) (c :: rest) = _
  simp only [pySplitAux, List.isPrefixOf_cons₂, List.isPrefixOf_nil_left, Bool.and_true]
  by_cases h : c₀ = c
  · simp [h, pySplit, List.length_cons]
  · simp [h, pySplit]

theorem pySplit_single_of_not_mem (c₀ : Char) :
    ∀ l : List Char, c₀ ∉ l → pySplit [c₀] l = [l]
  | [], _ => rfl
  | c :: rest, h => by
    have hc : ¬ c₀ = c := fun hh => h (hh ▸ List.mem_cons_self c rest)
    have hr : c₀ ∉ rest := fun hh => h (List.mem_cons_of_mem _ hh)
    rw [pySplit_cons_single, if_neg hc, pySplit_single_of_not_mem c₀ rest hr]
    rfl

theorem pySplit_single_length_of_mem (c₀ : Char) :
    ∀ l : List Char, c₀ ∈ l → 2 ≤ (pySplit [c₀] l).length
  | c :: rest, h => by
    rw [pySplit_cons_single]
    by_cases hc : c₀ = c
    · rw [if_pos hc]
      have h1 : 0 < (pySplit [c₀] rest).length :=
        List.length_pos.mpr (pySplit_ne_nil [c₀] rest)
      simp only [List.length_cons]
      omega
    · rw [if_neg hc]
      have hr : c₀ ∈ rest := by
        rcases List.mem_cons.mp h with h1 | h2
        · exact absurd h1 hc
        · exact h2
      have h2 := pySplit_single_length_of_mem c₀ rest hr
      rcases hx : pySplit [c₀] rest with _ | ⟨a, t⟩
      · exact absurd hx (pySplit_ne_nil _ _)
      · rw [hx] at h2
        simpa [consHead] using h2

/-! takeWhile helpers for the last-segment characterization. -/

theorem takeWhile_append_singleton_neg {α : Type} (q : α → Bool) (a : α) (ha : q a = false) :
    ∀ xs : List α, (xs ++ [a]).takeWhile q = xs.takeWhile q
  | [] => by simp [List.takeWhile_cons, ha]
  | x :: xs => by
    by_cases hx : q x = true
    · simp [List.takeWhile_cons, hx, takeWhile_append_singleton_neg q a ha xs]
    · simp [List.takeWhile_cons, hx]

theorem takeWhile_eq_self_iff_all {α : Type} (q : α → Bool) :
    ∀ xs : List α, xs.takeWhile q = xs ↔ ∀ x ∈ xs, q x = true
  | [] => by simp
  | x :: xs => by
    rw [List.takeWhile_cons]
    by_cases hx : q x = true
    · rw [if_pos hx]
      constructor
      · intro h y hy
        rcases List.mem_cons.mp hy with h1 | h2
        · exact h1 ▸ hx
        · have htl : xs.takeWhile q = xs := by
            have h' := congrArg List.tail h
            simpa using h'
          exact (takeWhile_eq_self_iff_all q xs).mp htl y h2
      · intro h
        rw [(takeWhile_eq_self_iff_all q xs).mpr fun y hy => h y (List.mem_cons_of_mem _ hy)]
    · rw [if_neg hx]
      constructor
      · intro h
        exact absurd (congrArg List.length h) (by simp)
      · intro h
        exact absurd (h x (List.mem_cons_self x xs)) hx

theorem takeWhile_append_singleton_pos {α : Type} [DecidableEq α] (q : α → Bool) (a : α)
    (ha : q a = true) :
    ∀ xs : List α, (xs ++ [a]).takeWhile q =
      if xs.takeWhile q = xs then xs ++ [a] else xs.takeWhile q
  | [] => by simp [ha]
  | x :: xs => by
    by_cases hx : q x = true
    · by_cases h2 : xs.takeWhile q = xs
      · rw [if_pos (by rw [List.takeWhile_cons, if_pos hx, h2])]
        rw [List.cons_append, List.takeWhile_cons, if_pos hx,
          takeWhile_append_singleton_pos q a ha xs, if_pos h2]
      · rw [if_neg (fun hh => by
          rw [List.takeWhile_cons, if_pos hx] at hh
          exact h2 (List.cons.inj hh).2)]
        rw [List.cons_append, List.takeWhile_cons, if_pos hx,
          takeWhile_append_singleton_pos q a ha xs, if_neg h2,
          List.takeWhile_cons, if_pos hx]
    · rw [if_neg (fun hh => by
        rw [List.takeWhile_cons, if_neg hx] at hh
        exact absurd (congrArg List.length hh) (by simp))]
      rw [List.cons_append, List.takeWhile_cons, if_neg hx, List.takeWhile_cons, if_neg hx]

/-- The last piece of a single-character split is the maximal
separator-free suffix. -/
theorem lastPiece_pySplit_single (c₀ : Char) :
    ∀ l : List Char, lastPiece (pySplit [c₀] l) =
      (l.reverse.takeWhile (fun c => c ≠ c₀)).reverse
  | [] => rfl
  | c :: rest => by
    have ih := lastPiece_pySplit_single c₀ rest
    rw [pySplit_cons_single, List.reverse_cons]
    by_cases hc : c₀ = c
    · rw [if_pos hc]
      rw [takeWhile_append_singleton_neg _ c (by simp [hc.symm])]
      rw [← ih]
      obtain ⟨b, L, hbl⟩ := List.exists_cons_of_ne_nil (pySplit_ne_nil [c₀] rest)
      rw [hbl]
      rfl
    · rw [if_neg hc]
      rw [takeWhile_append_singleton_pos _ c
        (by simp only [ne_eq, decide_eq_true_eq]; exact fun hh => hc hh.symm)]
      by_cases hm : c₀ ∈ rest
      · have hne : ¬ rest.reverse.takeWhile (fun c => c ≠ c₀) = rest.reverse := by
          intro hh
          have := (takeWhile_eq_self_iff_all _ rest.reverse).mp hh c₀ (by simpa using hm)
          simp at this
        rw [if_neg hne, ← ih]
        have h2 := pySplit_single_length_of_mem c₀ rest hm
        rcases hx : pySplit [c₀] rest with _ | ⟨b, L⟩
        · exact absurd hx (pySplit_ne_nil _ _)
        · rw [hx] at h2
          rcases L with _ | ⟨y, L⟩
          · simp at h2
          · rfl
      · have hall : rest.reverse.takeWhile (fun c => c ≠ c₀) = rest.reverse := by
          rw [takeWhile_eq_self_iff_all]
          intro x hx
          simp only [decide_eq_true_eq]
          intro hh
          exact hm (hh ▸ List.mem_reverse.mp hx)
        rw [if_pos hall, pySplit_single_of_not_mem c₀ rest hm]
        simp [consHead, lastPiece]

/-- The extension computed on line 96 of src/app.py agrees with the
specification reading: the lowercased substring after the last dot. -/
theorem extOf_eq_extSpec (name : String) : extOf name = extSpec name := by
  unfold extOf extSpec
  rw [lastPiece_pySplit_single]

/-- On a dot-free filename the extension check sees the whole lowercased
filename. -/
theorem extOf_of_no_dot (name : String) (h : ('.') ∉ name.data) :
    extOf name = pyLower name := by
  unfold extOf
  rw [pySplit_single_of_not_mem '.' name.data h]
  rfl

/-! The reverse scan of rule 1 picks the last matching line. -/

theorem find?_reverse_eq_getLast?_filter {α : Type} (p : α → Bool) :
    ∀ ls : List α, ls.reverse.find? p = (ls.filter p).getLast?
  | [] => rfl
  | a :: ls => by
    rw [List.reverse_cons, List.find?_append, find?_reverse_eq_getLast?_filter p ls]
    by_cases ha : p a = true
    · rw [List.filter_cons_of_pos ha]
      rcases hf : ls.filter p with _ | ⟨b, t⟩
      · simp [List.find?, ha]
      · rw [List.getLast?_cons_cons,
          List.getLast?_eq_getLast (b :: t) (by simp), Option.or_some]
    · rw [List.filter_cons_of_neg ha]
      rw [List.find?_cons_of_neg _ ha, List.find?_nil, Option.or_none]

/-! The forward scan of rule 2 as a flatten of per-line chunks. -/

theorem foldl_eq_flatten_map (f : List Char → List Char → List Char)
    (hf : ∀ acc l, f acc l = acc ++ chunk l) :
    ∀ (ls : List (List Char)) (acc : List Char),
      ls.foldl f acc = acc ++ (ls.map chunk).flatten
  | [], acc => by simp
  | l :: ls, acc => by
    rw [List.foldl_cons, foldl_eq_flatten_map f hf ls, hf, List.map_cons,
      List.flatten_cons, List.append_assoc]

theorem flatten_chunk_eq_nil : ∀ ls : List (List Char),
    ls.filterMap piece = [] → (ls.map chunk).flatten = []
  | [], _ => rfl
  | l :: ls, h => by
    rw [List.filterMap_cons] at h
    rcases hp : piece l with _ | p
    · rw [hp] at h
      simp only [List.map_cons, List.flatten_cons, chunk, hp]
      simpa using flatten_chunk_eq_nil ls h
    · rw [hp] at h
      cases h

theorem flatten_chunk_eq_joinSp : ∀ ls : List (List Char),
    ls.filterMap piece ≠ [] →
      (ls.map chunk).flatten = joinSp (ls.filterMap piece) ++ [' ']
  | [], h => absurd rfl h
  | l :: ls, h => by
    rcases hp : piece l with _ | p
    · have h' : ls.filterMap piece ≠ [] := by
        intro hc
        exact h (by rw [List.filterMap_cons, hp, hc])
      rw [List.map_cons, List.flatten_cons, List.filterMap_cons, hp]
      simpa [chunk, hp] using flatten_chunk_eq_joinSp ls h'
    · by_cases h' : ls.filterMap piece = []
      · rw [List.map_cons, List.flatten_cons, List.filterMap_cons, hp,
          flatten_chunk_eq_nil ls h', h']
        simp [chunk, hp, joinSp]
      · obtain ⟨q, ps, hq⟩ := List.exists_cons_of_ne_nil h'
        rw [List.map_cons, List.flatten_cons, List.filterMap_cons, hp,
          flatten_chunk_eq_joinSp ls h', hq]
        show (chunk l) ++ (joinSp (q :: ps) ++ [' ']) = (p ++ ' ' :: joinSp (q :: ps)) ++ [' ']
        simp [chunk, hp, List.append_assoc]

theorem pyIsWs_space : pyIsWs ' ' = true := by decide

theorem pyStripWs_append_space (x : List Char) : pyStripWs (x ++ [' ']) = pyStripWs x := by
  unfold pyStripWs
  rw [List.dropWhile_append]
  by_cases h : (x.dropWhile pyIsWs).isEmpty
  · rw [if_pos h]
    have hx : x.dropWhile pyIsWs = [] := by simpa [List.isEmpty_iff] using h
    rw [hx]
    simp [List.dropWhile_cons, pyIsWs_space]
  · rw [if_neg h, List.reverse_append]
    show (List.dropWhile pyIsWs (' ' :: (x.dropWhile pyIsWs).reverse)).reverse = _
    rw [List.dropWhile_cons, if_pos pyIsWs_space]

/-! Helper characterizations of the extractor. -/

theorem extract_from_lines_final (ls : List (List Char)) (line : List Char)
    (h : lastFinalLine ls = some line) :
    extract_from_lines ls = .ok (pyStripWs (splitIdx1 finalMarker line)) := by
  unfold lastFinalLine at h
  unfold extract_from_lines
  rw [find?_reverse_eq_getLast?_filter, h]

theorem extract_from_lines_nofinal (ls : List (List Char))
    (h : ∀ l ∈ ls, finalMarker.isPrefixOf l = false) :
    extract_from_lines ls =
      if ls.filterMap piece = [] then .error extractErrMsg
      else .ok (pyStripWs (joinSp (ls.filterMap piece))) := by
  unfold extract_from_lines
  have hfind : ls.reverse.find? (fun l => finalMarker.isPrefixOf l) = none := by
    rw [List.find?_eq_none]
    intro x hx
    simp [h x (List.mem_reverse.mp hx)]
  rw [hfind]
  rw [foldl_eq_flatten_map _ (fun acc l => by
    cases hp : piece l <;> simp [chunk, hp])]
  simp only [List.nil_append]
  by_cases hfm : ls.filterMap piece = []
  · rw [flatten_chunk_eq_nil ls hfm, if_pos rfl, if_pos hfm]
  · rw [flatten_chunk_eq_joinSp ls hfm, if_neg (by simp), if_neg hfm,
      pyStripWs_append_space]

theorem lastFinalLine_isSome_of_mem (ls : List (List Char)) (l : List Char)
    (hl : l ∈ ls) (hp : finalMarker.isPrefixOf l = true) :
    ∃ line, lastFinalLine ls = some line := by
  have hne : ls.filter (fun l => finalMarker.isPrefixOf l) ≠ [] := by
    intro hc
    have hmem : l ∈ ls.filter (fun l => finalMarker.isPrefixOf l) :=
      List.mem_filter.mpr ⟨hl, hp⟩
    rw [hc] at hmem
    cases hmem
  obtain ⟨b, L, hbl⟩ := List.exists_cons_of_ne_nil hne
  exact ⟨(b :: L).getLast (by simp),
    by unfold lastFinalLine; rw [hbl]; exact List.getLast?_eq_getLast _ _⟩

theorem piece_eq_none_iff (l : List Char) :
    piece l = none ↔ transcriptMarker.isPrefixOf (pyStripWs l) = false := by
  unfold piece
  by_cases h : transcriptMarker.isPrefixOf (pyStripWs l) = true
  · rw [if_pos h]
    simp [h]
  · rw [if_neg h]
    rw [Bool.not_eq_true] at h
    simp [h]

theorem extract_from_lines_error_iff (ls : List (List Char)) :
    extract_from_lines ls = .error extractErrMsg ↔
      ((∀ l ∈ ls, finalMarker.isPrefixOf l = false) ∧
       (∀ l ∈ ls, transcriptMarker.isPrefixOf (pyStripWs l) = false)) := by
  constructor
  · intro h
    by_cases hfin : ∀ l ∈ ls, finalMarker.isPrefixOf l = false
    · refine ⟨hfin, ?_⟩
      rw [extract_from_lines_nofinal ls hfin] at h
      by_cases hfm : ls.filterMap piece = []
      · intro l hl
        rw [← piece_eq_none_iff]
        exact List.filterMap_eq_nil_iff.mp hfm l hl
      · rw [if_neg hfm] at h
        cases h
    · exfalso
      push_neg at hfin
      obtain ⟨l, hl, hl2⟩ := hfin
      obtain ⟨line, hline⟩ :=
        lastFinalLine_isSome_of_mem ls l hl (Bool.not_eq_false _ ▸ hl2)
      rw [extract_from_lines_final ls line hline] at h
      cases h
  · rintro ⟨h1, h2⟩
    rw [extract_from_lines_nofinal ls h1]
    rw [if_pos (List.filterMap_eq_nil_iff.mpr fun l hl =>
      (piece_eq_none_iff l).mpr (h2 l hl))]

theorem extract_from_lines_error_msg (ls : List (List Char)) (e : String)
    (h : extract_from_lines ls = .error e) : e = extractErrMsg := by
  by_cases hfin : ∀ l ∈ ls, finalMarker.isPrefixOf l = false
  · rw [extract_from_lines_nofinal ls hfin] at h
    by_cases hfm : ls.filterMap piece = []
    · rw [if_pos hfm] at h
      exact (Except.error.inj h).symm
    · rw [if_neg hfm] at h
      cases h
  · push_neg at hfin
    obtain ⟨l, hl, hl2⟩ := hfin
    obtain ⟨line, hline⟩ :=
      lastFinalLine_isSome_of_mem ls l hl (Bool.not_eq_false _ ▸ hl2)
    rw [extract_from_lines_final ls line hline] at h
    cases h

theorem extract_transcript_of_ne (s : String) (h : s ≠ "") :
    extract_transcript s = (match extract_from_lines (linesOf s) with
      | .ok t => .ok (String.mk t)
      | .error e => .error e) := by
  unfold extract_transcript
  rw [if_neg h]

/-! Helper characterizations of the handler. -/

theorem asr_handler_accepted (req : AsrRequest) (f : UploadedFile)
    (hf : req.fileField = some f) (hne : f.filename ≠ "")
    (hext : extOf f.filename ∈ allowed_extensions)
    (t : TranscribeOutcome) (st : StoreOutcome) :
    asr_handler req t st = ⟨try_body t st, true, some false⟩ := by
  unfold asr_handler
  rw [hf]
  show (if f.filename = "" then _ else _) = _
  rw [if_neg hne, if_pos ⟨hne, hext⟩]
  rfl

theorem asr_handler_invalid_ext (req : AsrRequest) (f : UploadedFile)
    (hf : req.fileField = some f) (hne : f.filename ≠ "")
    (hext : extOf f.filename ∉ allowed_extensions)
    (t : TranscribeOutcome) (st : StoreOutcome) :
    asr_handler req t st =
      ⟨⟨400, .jsonError invalidTypeMsg⟩, false, some false⟩ := by
  unfold asr_handler
  rw [hf]
  show (if f.filename = "" then _ else _) = _
  rw [if_neg hne, if_neg (fun hand => hext hand.2)]

theorem try_body_status (t : TranscribeOutcome) (st : StoreOutcome) :
    (try_body t st).status = 200 ∨ (try_body t st).status = 500 := by
  unfold try_body
  cases t with
  | procError => right; rfl
  | ok out =>
    dsimp only
    by_cases h : out = ""
    · rw [if_pos h]
      right; rfl
    · rw [if_neg h]
      rcases hE : extract_transcript out with e | tr
      · right; rfl
      · cases st with
        | storeError => right; rfl
        | ok url => left; rfl

/-! Quote stripping leaves no quote at either end. -/

theorem head?_dropWhile_quote (x : List Char) :
    (x.dropWhile (fun c => c = quoteChar)).head? ≠ some quoteChar := by
  induction x with
  | nil => simp
  | cons c rest ih =>
    rw [List.dropWhile_cons]
    by_cases hc : c = quoteChar
    · rw [if_pos (by simp [hc])]
      exact ih
    · rw [if_neg (by simp [hc])]
      simpa using hc

theorem pyStripQuotes_getLast? (x : List Char) :
    (pyStripQuotes x).getLast? ≠ some quoteChar := by
  unfold pyStripQuotes
  rw [List.getLast?_eq_head?_reverse, List.reverse_reverse]
  exact head?_dropWhile_quote _

theorem pyStripQuotes_head? (x : List Char) :
    (pyStripQuotes x).head? ≠ some quoteChar := by
  unfold pyStripQuotes
  intro hcon
  obtain ⟨pre, hpre⟩ :=
    List.dropWhile_suffix (l := (x.dropWhile (fun c => c = quoteChar)).reverse)
      (p := fun c => c = quoteChar)
  have hy : x.dropWhile (fun c => c = quoteChar) =
      ((x.dropWhile (fun c => c = quoteChar)).reverse.dropWhile
        (fun c => c = quoteChar)).reverse ++ pre.reverse := by
    rw [← List.reverse_append, hpre, List.reverse_reverse]
  have hhead := head?_dropWhile_quote x
  rw [hy, List.head?_append, hcon] at hhead
  simp at hhead

theorem linesOf_empty : linesOf "" = [[]] := rfl

theorem ne_empty_of_lastFinalLine (s : String) (line : List Char)
    (h : lastFinalLine (linesOf s) = some line) : s ≠ "" := by
  intro hs
  rw [hs] at h
  have hnone : lastFinalLine (linesOf "") = none := by decide
  rw [hnone] at h
  cases h

theorem extract_from_lines_single_piece (l : List Char) (p : List Char)
    (hnf : finalMarker.isPrefixOf l = false)
    (hp : piece l = some p) :
    extract_from_lines [l] = .ok (pyStripWs p) := by
  have h1 : ∀ x ∈ [l], finalMarker.isPrefixOf x = false := by
    intro x hx
    rw [List.mem_singleton.mp hx]
    exact hnf
  rw [extract_from_lines_nofinal [l] h1]
  rw [show ([l].filterMap piece) = [p] from by rw [List.filterMap_cons, hp]; rfl]
  rw [if_neg (by simp)]
  rfl

/-! Claim theorems. -/

/-- C1 (counterexample): the claim quantifies over every input whose
lines include, in order, the line transcript: "hello" and then the line
Final transcript: world, and predicts the result "world". Appending one
further final-marker line gives such an input on which extraction
returns "mars" instead: the reverse scan stops at the last final-marker
line, not at the quoted one. -/
theorem C1_counterexample :
    linesOf "transcript: \x22hello\x22\nFinal transcript: world\nFinal transcript: mars" =
      ["transcript: \x22hello\x22".data, "Final transcript: world".data,
        "Final transcript: mars".data] ∧
    extract_transcript
        "transcript: \x22hello\x22\nFinal transcript: world\nFinal transcript: mars" =
      Except.ok "mars" ∧
    ("mars" : String) ≠ "world" :=
  ⟨rfl, rfl, by decide⟩

/-- C1 (amended): for every extractor input whose lines include the line
transcript: "hello" and whose last line starting with the literal marker
Final transcript: is the line Final transcript: world, extraction
returns "world": the reverse scan takes precedence over the forward-scan
fallback. -/
theorem C1_last_final_line_wins (s : String)
    (_h1 : ("transcript: \x22hello\x22").data ∈ linesOf s)
    (h2 : lastFinalLine (linesOf s) = some ("Final transcript: world").data) :
    extract_transcript s = Except.ok "world" := by
  have hs : s ≠ "" := ne_empty_of_lastFinalLine s _ h2
  rw [extract_transcript_of_ne s hs, extract_from_lines_final _ _ h2]
  rfl

/-- C1 (witness): the two-line input of the claim satisfies the amended
hypotheses and yields "world". -/
theorem C1_witness :
    extract_transcript "transcript: \x22hello\x22\nFinal transcript: world" =
      Except.ok "world" :=
  C1_last_final_line_wins "transcript: \x22hello\x22\nFinal transcript: world"
    (by decide) (by decide)

/-- C2 (counterexample): the claim asserts that a normal return is
always a non-empty string; the single line transcript: (with nothing
after the marker) returns normally with the empty string, because the
accumulated single space is truthy before the final strip empties it. -/
theorem C2_counterexample :
    extract_transcript "transcript:" = Except.ok "" := rfl

/-- C2 (amended): for every non-empty extractor input, extraction fails
with the extraction error exactly when no line starts with the final
marker and no line has stripped content starting with the transcript
marker; a normal return may be the empty string. -/
theorem C2_error_iff (s : String) (h : s ≠ "") :
    extract_transcript s = Except.error extractErrMsg ↔
      ((∀ l ∈ linesOf s, finalMarker.isPrefixOf l = false) ∧
       (∀ l ∈ linesOf s, transcriptMarker.isPrefixOf (pyStripWs l) = false)) := by
  rw [← extract_from_lines_error_iff, extract_transcript_of_ne s h]
  rcases hE : extract_from_lines (linesOf s) with e | t
  · show Except.error e = Except.error extractErrMsg ↔ _
    constructor
    · intro hh
      rw [Except.error.inj hh]
    · intro hh
      rw [Except.error.inj hh]
  · simp

/-- C2 (witness): a marker-free input satisfies both conditions and
fails with the extraction error. -/
theorem C2_witness :
    extract_transcript "no markers here" = Except.error extractErrMsg :=
  (C2_error_iff "no markers here" (by decide)).mpr ⟨by decide, by decide⟩

/-- C3 (counterexample): the claim triggers on any line in which the
final marker is found; in the line x Final transcript: y the marker is
found (as an infix) but the line does not start with it, so the code
falls through both rules and fails instead of returning y. -/
theorem C3_counterexample :
    List.IsInfix finalMarker ("x Final transcript: y".data) ∧
    linesOf "x Final transcript: y" = ["x Final transcript: y".data] ∧
    extract_transcript "x Final transcript: y" = Except.error extractErrMsg :=
  ⟨⟨"x ".data, " y".data, by decide⟩, rfl, rfl⟩

/-- C3 (amended): for every extractor input having a line that starts
with the final marker, the extractor returns, from the last such line,
the text strictly between the marker and its next occurrence in that
line (to the end of the line when there is none), trimmed of whitespace,
and the forward-scan fallback is not applied. -/
theorem C3_reverse_scan (s : String) (line : List Char)
    (h : lastFinalLine (linesOf s) = some line) :
    extract_transcript s =
      Except.ok (String.mk (pyStripWs (splitIdx1 finalMarker line))) := by
  have hs : s ≠ "" := ne_empty_of_lastFinalLine s _ h
  rw [extract_transcript_of_ne s hs, extract_from_lines_final _ _ h]

/-- C3 (witness): a progress line followed by a final-marker line yields
the text after the marker, trimmed. -/
theorem C3_witness :
    extract_transcript "progress\nFinal transcript: x" = Except.ok "x" := by
  rw [C3_reverse_scan "progress\nFinal transcript: x"
    ("Final transcript: x".data) (by decide)]
  rfl

/-- C4 (counterexample): the claim predicts, for each collected line,
the text after the marker; on the line transcript: a transcript: b the
code instead returns only the segment between the first marker and its
second occurrence, yielding "a" rather than "a transcript: b". -/
theorem C4_counterexample :
    extract_transcript "transcript: a transcript: b" = Except.ok "a" ∧
    ("a" : String) ≠ "a transcript: b" :=
  ⟨rfl, by decide⟩

/-- C4 (amended): for every non-empty extractor input none of whose
lines starts with the final marker, the extractor collects every line
whose trimmed content starts with the transcript marker, takes from each
the text strictly between the marker and its next occurrence (to the end
of the line when there is none) stripped of whitespace and then of all
leading and trailing double quotes, concatenates the pieces with single
space separators and trims the result; with no collected line it fails
with the extraction error. -/
theorem C4_forward_fallback (s : String) (h : s ≠ "")
    (hnf : ∀ l ∈ linesOf s, finalMarker.isPrefixOf l = false) :
    extract_transcript s =
      if (linesOf s).filterMap piece = [] then Except.error extractErrMsg
      else Except.ok (String.mk (pyStripWs (joinSp ((linesOf s).filterMap piece)))) := by
  rw [extract_transcript_of_ne s h, extract_from_lines_nofinal _ hnf]
  by_cases hfm : (linesOf s).filterMap piece = []
  · rw [if_pos hfm, if_pos hfm]
  · rw [if_neg hfm, if_neg hfm]

/-- C4 (witness): the two quoted transcript lines of the claim yield
"a b". -/
theorem C4_witness :
    extract_transcript "transcript: \x22a\x22\ntranscript: \x22b\x22" =
      Except.ok "a b" := by
  rw [C4_forward_fallback "transcript: \x22a\x22\ntranscript: \x22b\x22"
    (by decide) (by decide)]
  rfl

/-- C5 (counterexample): the claim says exactly one pair of enclosing
quotes is removed, not repeatedly; on transcript: followed by a doubly
quoted word the code removes all four quotes, yielding "a" rather than
the once-unquoted text. -/
theorem C5_counterexample :
    extract_transcript "transcript: \x22\x22a\x22\x22" = Except.ok "a" ∧
    ("a" : String) ≠ "\x22a\x22" :=
  ⟨rfl, by decide⟩

/-- C5 (amended): for a collected forward-scan line, the extracted text
is stripped of surrounding whitespace and then of all leading and
trailing quote characters, repeatedly and also when unpaired, so the
contributed piece never begins or ends with a quote. -/
theorem C5_quote_stripping (s : String) (l : List Char)
    (hl : linesOf s = [l])
    (hguard : transcriptMarker.isPrefixOf (pyStripWs l) = true)
    (hnf : finalMarker.isPrefixOf l = false) :
    extract_transcript s =
      Except.ok (String.mk (pyStripWs
        (pyStripQuotes (pyStripWs (splitIdx1 transcriptMarker l))))) ∧
    (pyStripQuotes (pyStripWs (splitIdx1 transcriptMarker l))).head? ≠ some quoteChar ∧
    (pyStripQuotes (pyStripWs (splitIdx1 transcriptMarker l))).getLast? ≠ some quoteChar := by
  have hs : s ≠ "" := by
    intro hs0
    rw [hs0, linesOf_empty] at hl
    injection hl with hh1 hh2
    rw [← hh1] at hguard
    exact absurd hguard (by decide)
  refine ⟨?_, pyStripQuotes_head? _, pyStripQuotes_getLast? _⟩
  rw [extract_transcript_of_ne s hs, hl,
    extract_from_lines_single_piece l _ hnf (by unfold piece; rw [if_pos hguard])]

/-- C5 (witness): the single line transcript: ""hi with repeated and
unpaired leading quotes yields hi. -/
theorem C5_witness :
    extract_transcript "transcript: \x22\x22hi" = Except.ok "hi" := by
  rw [(C5_quote_stripping "transcript: \x22\x22hi" ("transcript: \x22\x22hi".data)
    (by decide) (by decide) (by decide)).1]
  rfl

/-- C6 (confirmed): for a present upload with a non-empty filename, the
extension the handler checks is the lowercased substring after the last
dot; when it is outside the accepted set the handler answers 400 with
the invalid-type message and creates no temp file, and when it is in the
set (case-insensitively, via the lowercasing) the request is accepted
and the response is never a 400. -/
theorem C6_extension_validation (req : AsrRequest) (f : UploadedFile)
    (hf : req.fileField = some f) (hne : f.filename ≠ "")
    (t : TranscribeOutcome) (st : StoreOutcome) :
    extOf f.filename = extSpec f.filename ∧
    (extOf f.filename ∉ allowed_extensions →
      asr_handler req t st = ⟨⟨400, .jsonError invalidTypeMsg⟩, false, some false⟩) ∧
    (extOf f.filename ∈ allowed_extensions →
      asr_handler req t st = ⟨try_body t st, true, some false⟩ ∧
      (try_body t st).status ≠ 400) := by
  refine ⟨extOf_eq_extSpec _, ?_, ?_⟩
  · intro hext
    exact asr_handler_invalid_ext req f hf hne hext t st
  · intro hext
    refine ⟨asr_handler_accepted req f hf hne hext t st, ?_⟩
    rcases try_body_status t st with h | h <;> simp [h]

/-- C6 (witness): a.txt is rejected with the invalid-type message,
a.WAV is accepted, and its computed extension is wav. -/
theorem C6_witness :
    asr_handler ⟨some ⟨"a.txt"⟩⟩ (.ok "Final transcript: w") (.ok "u") =
      ⟨⟨400, .jsonError invalidTypeMsg⟩, false, some false⟩ ∧
    asr_handler ⟨some ⟨"a.WAV"⟩⟩ (.ok "Final transcript: w") (.ok "u") =
      ⟨try_body (.ok "Final transcript: w") (.ok "u"), true, some false⟩ ∧
    extOf "a.WAV" = "wav" :=
  ⟨(C6_extension_validation ⟨some ⟨"a.txt"⟩⟩ ⟨"a.txt"⟩ rfl (by decide)
      (.ok "Final transcript: w") (.ok "u")).2.1 (by decide),
   ((C6_extension_validation ⟨some ⟨"a.WAV"⟩⟩ ⟨"a.WAV"⟩ rfl (by decide)
      (.ok "Final transcript: w") (.ok "u")).2.2 (by decide)).1,
   by decide⟩

/-- C7 (confirmed): for every accepted upload, whatever the transcriber
and store outcomes, a temp file is created and the cleanup of the
finally block leaves it absent without raising; cleanup on an already
missing file also does not raise. -/
theorem C7_temp_cleanup (req : AsrRequest) (f : UploadedFile)
    (hf : req.fileField = some f) (hne : f.filename ≠ "")
    (hext : extOf f.filename ∈ allowed_extensions)
    (t : TranscribeOutcome) (st : StoreOutcome) :
    (asr_handler req t st).tempCreated = true ∧
    (asr_handler req t st).cleanupResult = some false ∧
    cleanup false = some false := by
  rw [asr_handler_accepted req f hf hne hext t st]
  exact ⟨rfl, rfl, rfl⟩

/-- C7 (witness): an accepted upload with a failing transcriber still
ends with the temp file removed. -/
theorem C7_witness :
    (asr_handler ⟨some ⟨"a.wav"⟩⟩ .procError (.ok "u")).cleanupResult = some false :=
  (C7_temp_cleanup ⟨some ⟨"a.wav"⟩⟩ ⟨"a.wav"⟩ rfl (by decide) (by decide)
    .procError (.ok "u")).2.1

/-- C8 (counterexample): the claim predicts the generic message on every
failure other than extraction failure, but an accepted upload whose
transcriber returns empty output is answered 500 with the message ASR
output is empty, which differs from the generic message. -/
theorem C8_counterexample :
    (asr_handler ⟨some ⟨"a.wav"⟩⟩ (.ok "") (.ok "u")).response =
      ⟨500, .jsonError "ASR output is empty"⟩ ∧
    ("ASR output is empty" : String) ≠ genericErrMsg :=
  ⟨rfl, by decide⟩

/-- C8 (amended): for every accepted upload, a transcriber process
failure is answered 500 with the generic message, an extraction failure
is answered 500 with the extraction error message, and a text-store
failure is answered 500 with the generic message; the empty-output check
is the one further failure and surfaces its own message. -/
theorem C8_error_mapping (req : AsrRequest) (f : UploadedFile)
    (hf : req.fileField = some f) (hne : f.filename ≠ "")
    (hext : extOf f.filename ∈ allowed_extensions) (st : StoreOutcome) :
    (asr_handler req .procError st).response = ⟨500, .jsonError genericErrMsg⟩ ∧
    (∀ out msg, out ≠ "" → extract_transcript out = .error msg →
      (asr_handler req (.ok out) st).response = ⟨500, .jsonError msg⟩) ∧
    (∀ out tr, out ≠ "" → extract_transcript out = .ok tr →
      (asr_handler req (.ok out) .storeError).response =
        ⟨500, .jsonError genericErrMsg⟩) := by
  refine ⟨?_, ?_, ?_⟩
  · rw [asr_handler_accepted req f hf hne hext .procError st]
    rfl
  · intro out msg ho hE
    rw [asr_handler_accepted req f hf hne hext (.ok out) st]
    show try_body (.ok out) st = _
    unfold try_body
    dsimp only
    rw [if_neg ho, hE]
  · intro out tr ho hE
    rw [asr_handler_accepted req f hf hne hext (.ok out) .storeError]
    show try_body (.ok out) .storeError = _
    unfold try_body
    dsimp only
    rw [if_neg ho, hE]

/-- C8 (witness): process failure and store failure give the generic
message; marker-free output gives the extraction error message. -/
theorem C8_witness :
    (asr_handler ⟨some ⟨"a.wav"⟩⟩ .procError (.ok "u")).response =
      ⟨500, .jsonError genericErrMsg⟩ ∧
    (asr_handler ⟨some ⟨"a.wav"⟩⟩ (.ok "junk") (.ok "u")).response =
      ⟨500, .jsonError extractErrMsg⟩ ∧
    (asr_handler ⟨some ⟨"a.wav"⟩⟩ (.ok "Final transcript: w") .storeError).response =
      ⟨500, .jsonError genericErrMsg⟩ := by
  have h := C8_error_mapping ⟨some ⟨"a.wav"⟩⟩ ⟨"a.wav"⟩ rfl (by decide)
    (by decide) (.ok "u")
  have h2 := C8_error_mapping ⟨some ⟨"a.wav"⟩⟩ ⟨"a.wav"⟩ rfl (by decide)
    (by decide) .storeError
  exact ⟨h.1, h.2.1 "junk" extractErrMsg (by decide) rfl,
    h2.2.2 "Final transcript: w" "w" (by decide) rfl⟩

/-- C9 (confirmed): a filename without any dot whose lowercased whole
text is an accepted extension passes validation, because the check takes
the last dot-separated segment, which is then the whole filename; the
handler creates the temp file and proceeds into the try block. -/
theorem C9_dotless_filename (req : AsrRequest) (f : UploadedFile)
    (hf : req.fileField = some f) (hnodot : ('.') ∉ f.filename.data)
    (hmem : pyLower f.filename ∈ allowed_extensions)
    (t : TranscribeOutcome) (st : StoreOutcome) :
    (asr_handler req t st).response = try_body t st ∧
    (asr_handler req t st).tempCreated = true := by
  have hne : f.filename ≠ "" := by
    intro h0
    rw [h0] at hmem
    exact absurd hmem (by decide)
  have hext : extOf f.filename ∈ allowed_extensions := by
    rw [extOf_of_no_dot f.filename hnodot]
    exact hmem
  rw [asr_handler_accepted req f hf hne hext t st]
  exact ⟨rfl, rfl⟩

/-- C9 (witness): the filename ogg, with no dot, is accepted and reaches
transcription. -/
theorem C9_witness :
    (asr_handler ⟨some ⟨"ogg"⟩⟩ (.ok "Final transcript: w") (.ok "u")).tempCreated =
      true :=
  (C9_dotless_filename ⟨some ⟨"ogg"⟩⟩ ⟨"ogg"⟩ rfl (by decide) (by decide)
    (.ok "Final transcript: w") (.ok "u")).2

/-- C10 (confirmed): for every accepted upload whose transcriber returns
empty output, the handler answers 500 with the JSON error ASR output is
empty, not the generic message. -/
theorem C10_empty_asr_output (req : AsrRequest) (f : UploadedFile)
    (hf : req.fileField = some f) (hne : f.filename ≠ "")
    (hext : extOf f.filename ∈ allowed_extensions) (st : StoreOutcome) :
    (asr_handler req (.ok "") st).response =
      ⟨500, .jsonError "ASR output is empty"⟩ := by
  rw [asr_handler_accepted req f hf hne hext (.ok "") st]
  rfl

/-- C10 (witness): an accepted opus upload with empty transcriber output
is answered with the empty-output message. -/
theorem C10_witness :
    (asr_handler ⟨some ⟨"b.opus"⟩⟩ (.ok "") (.ok "u")).response =
      ⟨500, .jsonError "ASR output is empty"⟩ :=
  C10_empty_asr_output ⟨some ⟨"b.opus"⟩⟩ ⟨"b.opus"⟩ rfl (by decide) (by decide)
    (.ok "u")

end AsrApp
